import Mathlib

/-!
Verification development for the graph-rag repository.

This file gives a shallow embedding, in Lean 4, of the control logic of the
graph-rag ingestion pipeline and DRIFT retriever, translated from the Python
sources under src/, together with theorems settling the frozen claims about
that logic.

Modelling conventions:
* Python `dict` objects are modelled as association lists with the python
  assignment/update primitives `setVal` (dict[k] = v: overwrite in place, else
  append) and `dictUpdate` (dict.update: fold of assignments), and the lookup
  primitive `getVal`.
* Python `set` objects (only `Entity.doc_ids`) are modelled as `Finset String`;
  `set.add` is `insert`.
* Language-model and vector-store calls are modelled as oracle functions passed
  in as parameters; theorems quantify over the oracle or instantiate it.
* `uuid.uuid4()` is modelled as a fresh-name supply `fresh : Nat → String`
  indexed by the loop position in which the uuid is drawn.
* Similarity scores (python floats compared with `>` only) are modelled as `ℚ`.
-/

/-- Lookup in a python dict modelled as an association list
(first binding wins; python dicts hold each key once). -/
def getVal {β : Type} (d : List (String × β)) (k : String) : Option β :=
  match d with
  | [] => none
  | (k₀, v) :: rest => if k = k₀ then some v else getVal rest k

/-- Python dict assignment `d[k] = v`: overwrite the binding in place if the
key is present, otherwise append the new binding (insertion order semantics). -/
def setVal {β : Type} : List (String × β) → String → β → List (String × β)
  | [], k, v => [(k, v)]
  | (k₀, v₀) :: rest, k, v =>
    if k₀ = k then (k, v) :: rest else (k₀, v₀) :: setVal rest k v

/-- Python `d.update(upd)`: assign every binding of `upd` into `d` in order. -/
def dictUpdate {β : Type} (d upd : List (String × β)) : List (String × β) :=
  upd.foldl (fun acc p => setVal acc p.1 p.2) d

theorem getVal_setVal {β : Type} (d : List (String × β)) (k : String) (v : β) (k₁ : String) :
    getVal (setVal d k v) k₁ = if k₁ = k then some v else getVal d k₁ := by
  induction d with
  | nil =>
    by_cases h : k₁ = k <;> simp [setVal, getVal, h]
  | cons p rest ih =>
    obtain ⟨pk, pv⟩ := p
    by_cases hpk : pk = k
    · simp only [setVal, if_pos hpk, getVal, hpk]
      by_cases h : k₁ = k <;> simp [h]
    · simp only [setVal, if_neg hpk, getVal, ih]
      by_cases h : k₁ = pk
      · have hk : ¬ k₁ = k := by rw [h]; exact hpk
        simp [h, hk, hpk]
      · simp [h]

theorem getVal_none_of_not_mem {β : Type} (l : List (String × β)) (k : String)
    (h : k ∉ l.map Prod.fst) : getVal l k = none := by
  induction l with
  | nil => rfl
  | cons p rest ih =>
    simp only [List.map_cons, List.mem_cons, not_or] at h
    simp only [getVal, if_neg h.1, ih h.2]

/-- Characterisation of `dict.update`: for a well-formed update dict (keys
unique, as python guarantees), a key bound in the update wins, any other key
keeps its old binding. -/
theorem getVal_dictUpdate {β : Type} (upd : List (String × β))
    (hnd : (upd.map Prod.fst).Nodup) (d : List (String × β)) (k : String) :
    getVal (dictUpdate d upd) k = (getVal upd k).orElse (fun _ => getVal d k) := by
  induction upd generalizing d with
  | nil => simp [dictUpdate, getVal]
  | cons p rest ih =>
    obtain ⟨pk, pv⟩ := p
    simp only [List.map_cons, List.nodup_cons] at hnd
    have step : dictUpdate d ((pk, pv) :: rest) = dictUpdate (setVal d pk pv) rest := rfl
    rw [step, ih hnd.2, getVal]
    by_cases hk : k = pk
    · have hnone : getVal rest k = none :=
        getVal_none_of_not_mem rest k (by rw [hk]; exact hnd.1)
      rw [if_pos hk, hnone, getVal_setVal, if_pos hk]
      simp
    · simp only [if_neg hk, getVal_setVal, if_neg hk]

/-- Transient extracted entity, from ingestion/schema/extractor.py (class
Entity): id, entity_label, a string-keyed properties dict, and the doc_ids set
of chunk ids that mentioned the entity. -/
structure Entity where
  id : String
  entity_label : String
  properties : List (String × String)
  doc_ids : Finset String
deriving DecidableEq

/-- Transient relationship triplet, from ingestion/schema/extractor.py
(class Triplet). -/
structure Triplet where
  source_id : String
  relationship : String
  target_id : String
deriving DecidableEq

/-- One merge step of the chunk-by-chunk extraction loop, shared verbatim by
GraphExtractor.extract (graph_extractor.py lines 49-57) and
PropertyGraphIngestor.ingest (property_graph.py lines 104-114): the returned
entity first gets the current chunk id added to its own doc_ids; then, if its
id is already in entity_storage, the stored record's properties are
dict-updated with the returned properties and the chunk id is added to the
stored record's doc_ids; otherwise the returned entity is inserted as new. -/
def merge_extracted_entity (entity_storage : List (String × Entity)) (doc_id : String)
    (ent : Entity) : List (String × Entity) :=
  let ent := { ent with doc_ids := insert doc_id ent.doc_ids }
  match getVal entity_storage ent.id with
  | some existing =>
      setVal entity_storage ent.id
        { existing with
            properties := dictUpdate existing.properties ent.properties,
            doc_ids := insert doc_id existing.doc_ids }
  | none => entity_storage ++ [(ent.id, ent)]

/-- GraphExtractor._reassign_entity_ids (graph_extractor.py lines 97-128),
translated line by line. `fresh n` stands for the uuid drawn at loop index `n`.
Note line 104 of the source: `id_map[new_id] = new_id` — the map is keyed by
the freshly generated id, not by the entity's prior id. -/
def GraphExtractor.reassign_entity_ids (fresh : Nat → String)
    (entities : List Entity) (triplets : List Triplet) : List Entity × List Triplet :=
  let r := entities.enum.foldl
    (fun (acc : List (String × String) × List Entity) (ie : Nat × Entity) =>
      let new_id := fresh ie.1
      (setVal acc.1 new_id new_id,
       acc.2 ++ [{ id := new_id, entity_label := ie.2.entity_label,
                   properties := ie.2.properties, doc_ids := ie.2.doc_ids }]))
    ([], [])
  let id_map := r.1
  let new_entities := r.2
  let new_triplets := triplets.foldl
    (fun (acc : List Triplet) (t : Triplet) =>
      match getVal id_map t.source_id, getVal id_map t.target_id with
      | some s, some tg =>
          acc ++ [{ source_id := s, relationship := t.relationship, target_id := tg }]
      | _, _ => acc)
    []
  (new_entities, new_triplets)

/-- PropertyGraphIngestor._reassign_entity_ids (property_graph.py lines
212-263), translated line by line; here line 224 keys the map by the entity's
prior id: `id_map[entity.id] = new_id`. -/
def PropertyGraphIngestor.reassign_entity_ids (fresh : Nat → String)
    (entities : List Entity) (triplets : List Triplet) : List Entity × List Triplet :=
  let r := entities.enum.foldl
    (fun (acc : List (String × String) × List Entity) (ie : Nat × Entity) =>
      let new_id := fresh ie.1
      (setVal acc.1 ie.2.id new_id,
       acc.2 ++ [{ id := new_id, entity_label := ie.2.entity_label,
                   properties := ie.2.properties, doc_ids := ie.2.doc_ids }]))
    ([], [])
  let id_map := r.1
  let new_entities := r.2
  let new_triplets := triplets.foldl
    (fun (acc : List Triplet) (t : Triplet) =>
      match getVal id_map t.source_id, getVal id_map t.target_id with
      | some s, some tg =>
          acc ++ [{ source_id := s, relationship := t.relationship, target_id := tg }]
      | _, _ => acc)
    []
  (new_entities, new_triplets)

/-- Claim C1 (code bug, failing input): on one entity "e1" and the single
triplet ("e1", works_for, "e1"), whose endpoints are in the final entity set,
PropertyGraphIngestor._reassign_entity_ids rewrites the triplet through the
source→new id map, but GraphExtractor._reassign_entity_ids silently drops it:
its id_map is keyed by the fresh ids themselves (graph_extractor.py line 104),
so no triplet carrying an LM-produced source id is ever rewritten. -/
theorem claim_C1_graph_extractor_drops_valid_triplets :
    PropertyGraphIngestor.reassign_entity_ids (fun n => "uuid-" ++ toString n)
        [⟨"e1", "Driver", [], ∅⟩] [⟨"e1", "works_for", "e1"⟩]
      = ([⟨"uuid-0", "Driver", [], ∅⟩], [⟨"uuid-0", "works_for", "uuid-0"⟩]) ∧
    GraphExtractor.reassign_entity_ids (fun n => "uuid-" ++ toString n)
        [⟨"e1", "Driver", [], ∅⟩] [⟨"e1", "works_for", "e1"⟩]
      = ([⟨"uuid-0", "Driver", [], ∅⟩], []) := by
  constructor <;> rfl

/-- Claim C6 (code bug, failing input): the two _reassign_entity_ids
implementations are not equivalent. Given the same fresh-id supply they agree
on the output entities, but on the input triplet ("t1", raced_for, "t2") with
both endpoints in the final entity set, PropertyGraphIngestor retains (and
rewrites) the triplet while GraphExtractor retains nothing. -/
theorem claim_C6_reassign_implementations_diverge :
    (PropertyGraphIngestor.reassign_entity_ids (fun n => "id" ++ toString n)
        [⟨"t1", "Driver", [], ∅⟩, ⟨"t2", "Team", [], ∅⟩]
        [⟨"t1", "raced_for", "t2"⟩]).1
      = (GraphExtractor.reassign_entity_ids (fun n => "id" ++ toString n)
        [⟨"t1", "Driver", [], ∅⟩, ⟨"t2", "Team", [], ∅⟩]
        [⟨"t1", "raced_for", "t2"⟩]).1 ∧
    (PropertyGraphIngestor.reassign_entity_ids (fun n => "id" ++ toString n)
        [⟨"t1", "Driver", [], ∅⟩, ⟨"t2", "Team", [], ∅⟩]
        [⟨"t1", "raced_for", "t2"⟩]).2
      = [⟨"id0", "raced_for", "id1"⟩] ∧
    (GraphExtractor.reassign_entity_ids (fun n => "id" ++ toString n)
        [⟨"t1", "Driver", [], ∅⟩, ⟨"t2", "Team", [], ∅⟩]
        [⟨"t1", "raced_for", "t2"⟩]).2
      = [] := by
  refine ⟨rfl, rfl, rfl⟩

/-- Claim C7 (counterexample): the claim asserts that an entity with a fresh id
is inserted with doc_ids = \x7bcurrent chunk id\x7d. But the extraction schema
(ingestion/schema/extractor.py) validates a doc_ids field on returned entities,
and the loop only adds the current chunk id to whatever the returned entity
already carries. With a returned entity carrying doc_ids = \x7b"z"\x7d and
current chunk "c1", the inserted record has doc_ids \x7b"z", "c1"\x7d, not
\x7b"c1"\x7d. -/
theorem claim_C7_counterexample :
    (getVal (merge_extracted_entity [] "c1" ⟨"e", "Driver", [], {"z"}⟩) "e").map Entity.doc_ids
      = some {"c1", "z"} ∧
    ({"c1", "z"} : Finset String) ≠ {"c1"} := by
  constructor
  · rfl
  · decide

/-- Claim C7 (amended): one merge step of chunk-by-chunk extraction. If the
returned entity's id already exists in entity_storage, the stored record keeps
its id and label, only gets the current chunk id added to its doc_ids (the
returned entity's own doc_ids are ignored), and its properties dict is
shallow-merged with the returned properties — a key bound in the returned
properties wins by overwrite, any other key keeps its stored value — while
every other storage entry is untouched. If the id is fresh, the returned entity
is inserted with doc_ids equal to its own doc_ids plus the current chunk id
(equal to just the chunk id whenever the returned entity carried none, the
schema default). -/
theorem claim_C7_merge_step (entity_storage : List (String × Entity)) (doc_id : String)
    (ent : Entity) :
    (∀ existing, getVal entity_storage ent.id = some existing →
      (ent.properties.map Prod.fst).Nodup →
      getVal (merge_extracted_entity entity_storage doc_id ent) ent.id =
        some { existing with
                 properties := dictUpdate existing.properties ent.properties,
                 doc_ids := insert doc_id existing.doc_ids } ∧
      (∀ k, getVal (dictUpdate existing.properties ent.properties) k =
        ((getVal ent.properties k).orElse (fun _ => getVal existing.properties k))) ∧
      (∀ k, k ≠ ent.id →
        getVal (merge_extracted_entity entity_storage doc_id ent) k =
          getVal entity_storage k)) ∧
    (getVal entity_storage ent.id = none →
      merge_extracted_entity entity_storage doc_id ent =
        entity_storage ++ [(ent.id, { ent with doc_ids := insert doc_id ent.doc_ids })]) := by
  constructor
  · intro existing hex hnd
    refine ⟨?_, fun k => getVal_dictUpdate ent.properties hnd existing.properties k, ?_⟩
    · simp only [merge_extracted_entity, hex]
      rw [getVal_setVal, if_pos rfl]
    · intro k hk
      simp only [merge_extracted_entity, hex]
      rw [getVal_setVal, if_neg hk]
  · intro hnone
    simp only [merge_extracted_entity, hnone]

/-- Witness for claim_C7_merge_step: merging returned entity e with properties
p↦2, q↦3 into a store holding e with properties p↦1, r↦0 and doc_ids
\x7b"c0"\x7d under chunk "c2" keeps key r from the store, takes keys p and q
from the returned entity, unions doc_ids with the chunk id, and leaves the
unrelated entry "other" alone; a fresh id "g" is appended as new. -/
theorem claim_C7_merge_step_witness :
    (getVal (dictUpdate [("p", "1"), ("r", "0")] [("p", "2"), ("q", "3")]) "p" = some "2" ∧
     getVal (dictUpdate [("p", "1"), ("r", "0")] [("p", "2"), ("q", "3")]) "q" = some "3" ∧
     getVal (dictUpdate [("p", "1"), ("r", "0")] [("p", "2"), ("q", "3")]) "r" = some "0") ∧
    getVal
      (merge_extracted_entity [("e", ⟨"e", "Driver", [("p", "1"), ("r", "0")], {"c0"}⟩)]
        "c2" ⟨"e", "Driver", [("p", "2"), ("q", "3")], ∅⟩) "e"
      = some ⟨"e", "Driver", dictUpdate [("p", "1"), ("r", "0")] [("p", "2"), ("q", "3")],
              insert "c2" {"c0"}⟩ ∧
    merge_extracted_entity [] "c9" ⟨"g", "Team", [], ∅⟩
      = [("g", ⟨"g", "Team", [], insert "c9" ∅⟩)] := by
  have h := claim_C7_merge_step
    [("e", ⟨"e", "Driver", [("p", "1"), ("r", "0")], {"c0"}⟩)] "c2"
    ⟨"e", "Driver", [("p", "2"), ("q", "3")], ∅⟩
  have hm := h.1 ⟨"e", "Driver", [("p", "1"), ("r", "0")], {"c0"}⟩ rfl (by decide)
  have hg := (claim_C7_merge_step [] "c9" ⟨"g", "Team", [], ∅⟩).2 rfl
  exact ⟨⟨by rw [hm.2.1 "p"]; rfl, by rw [hm.2.1 "q"]; rfl, by rw [hm.2.1 "r"]; rfl⟩,
         hm.1, hg⟩

/-- A scored similarity-search result, as consumed by
LexicalGraphIngestor._get_lexical_edges: the matched chunk's id (from
`similar_document.metadata["id"]`) together with the source file the chunk
belongs to (`source_id` on the Chunk node), and the score. -/
structure ScoredChunk where
  id : String
  source_id : String
deriving DecidableEq

/-- Default of the `lexical_threshold` constructor argument of
LexicalGraphIngestor (lexical_graph.py line 21): 0.75. -/
def lexical_threshold_default : ℚ := 3 / 4

/-- LexicalGraphIngestor._get_lexical_edges (lexical_graph.py lines 117-133):
for every chunk of the current file, run a similarity search on its embedding
(modelled by the oracle `similarity_search`, which is the store-wide k-NN
search — it is not restricted to the current file), skip self-matches, and
keep (doc_id, similar_doc_id, score) whenever score strictly exceeds the
threshold. -/
def LexicalGraphIngestor.get_lexical_edges {α : Type} (lexical_threshold : ℚ)
    (similarity_search : α → List (ScoredChunk × ℚ))
    (id_embedding_map : List (String × α)) : List (String × String × ℚ) :=
  id_embedding_map.flatMap (fun p =>
    (similarity_search p.2).filterMap (fun r =>
      if p.1 = r.1.id then none
      else if lexical_threshold < r.2 then some (p.1, r.1.id, r.2) else none))

/-- Claim C3 (counterexample): SIMILAR edges are not restricted to chunks of
the same source file. With current-file chunk "a" (file "f1") and a store-wide
similarity search returning chunk "b" of file "f2" with score 9/10 > 3/4, the
edge ("a", "b", 9/10) is produced and later merged by _connect_similar_chunks,
which matches the two Chunk nodes by id only. -/
theorem claim_C3_counterexample :
    ("a", "b", (9 : ℚ) / 10) ∈
      LexicalGraphIngestor.get_lexical_edges lexical_threshold_default
        (fun _ => [(⟨"b", "f2"⟩, (9 : ℚ) / 10)]) [("a", (0 : Nat))] ∧
    (⟨"b", "f2"⟩ : ScoredChunk).source_id ≠ "f1" := by
  constructor
  · have hlt : lexical_threshold_default < (9 : ℚ) / 10 := by
      unfold lexical_threshold_default
      norm_num
    simp [LexicalGraphIngestor.get_lexical_edges, hlt]
  · decide

/-- Claim C3 (amended): every edge produced by
LexicalGraphIngestor._get_lexical_edges has distinct endpoints (self-matches
are skipped) and a score strictly greater than the configured threshold
(default 0.75); the endpoints are, however, not required to share a source
file, since the similarity search runs over the whole vector index and
_connect_similar_chunks matches chunks by id only. -/
theorem claim_C3_edge_invariant {α : Type} (lexical_threshold : ℚ)
    (similarity_search : α → List (ScoredChunk × ℚ))
    (id_embedding_map : List (String × α)) (e : String × String × ℚ)
    (he : e ∈ LexicalGraphIngestor.get_lexical_edges lexical_threshold
      similarity_search id_embedding_map) :
    e.1 ≠ e.2.1 ∧ lexical_threshold < e.2.2 := by
  simp only [LexicalGraphIngestor.get_lexical_edges, List.mem_flatMap,
    List.mem_filterMap] at he
  obtain ⟨p, _, r, _, hr⟩ := he
  by_cases hself : p.1 = r.1.id
  · simp [hself] at hr
  · by_cases hscore : lexical_threshold < r.2
    · simp only [if_neg hself, if_pos hscore, Option.some.injEq] at hr
      subst hr
      exact ⟨hself, hscore⟩
    · simp [hself, hscore] at hr

/-- Witness for claim_C3_edge_invariant at the default threshold: a kept edge
between distinct chunks "a" and "c" of the same file with score 4/5. -/
theorem claim_C3_edge_invariant_witness :
    ("a" : String) ≠ "c" ∧ lexical_threshold_default < (4 : ℚ) / 5 := by
  have hlt : lexical_threshold_default < (4 : ℚ) / 5 := by
    unfold lexical_threshold_default
    norm_num
  have hmem : ("a", "c", (4 : ℚ) / 5) ∈
      LexicalGraphIngestor.get_lexical_edges lexical_threshold_default
        (fun _ => [(⟨"c", "f1"⟩, (4 : ℚ) / 5)]) [("a", (0 : Nat))] := by
    simp [LexicalGraphIngestor.get_lexical_edges, hlt]
  exact claim_C3_edge_invariant lexical_threshold_default
    (fun _ => [(⟨"c", "f1"⟩, (4 : ℚ) / 5)]) [("a", (0 : Nat))] _ hmem

/-- Answer-tree node, from rag/schema/retrievers.py (class Node): query,
answer, and the ordered children list (appended via add_child). -/
inductive Node where
  | mk (query : String) (answer : String) (children : List Node)

def Node.query : Node → String
  | .mk q _ _ => q

def Node.answer : Node → String
  | .mk _ a _ => a

def Node.children : Node → List Node
  | .mk _ _ cs => cs

mutual

/-- Number of nodes of an answer tree. -/
def Node.size : Node → Nat
  | .mk _ _ cs => 1 + Node.sizeList cs

def Node.sizeList : List Node → Nat
  | [] => 0
  | c :: cs => Node.size c + Node.sizeList cs

end

mutual

/-- Height of an answer tree (a single node has height 1); a node sitting at
recursion depth d in a tree of height h satisfies d ≤ h when the root is
counted at depth 1, as drift_search does. -/
def Node.height : Node → Nat
  | .mk _ _ cs => 1 + Node.heightList cs

def Node.heightList : List Node → Nat
  | [] => 0
  | c :: cs => max (Node.height c) (Node.heightList cs)

end

/-- DRIFT retriever configuration, from rag/retrievers/drift.py (class
DriftConfig): top_k, max_depth, max_follow_ups. -/
structure DriftConfig where
  top_k : Nat
  max_depth : Nat
  max_follow_ups : Nat

/-- drift_search (rag/retrievers/drift.py lines 55-80). The composite of the
expand_query LM call, the primer vector search and the primer_search LM call
is modelled by `oracle : query → depth → (answer, follow_up_questions)`; the
LM is *asked* for max_follow_ups follow-up questions but the code iterates
over whatever list comes back. A node is a leaf when depth ≥ max_depth;
otherwise one child per follow-up question is appended in follow-up order at
depth + 1. Callers start at the default depth = 1. -/
def drift_search (oracle : String → Nat → String × List String) (config : DriftConfig)
    (query : String) (depth : Nat) : Node :=
  let res := oracle query depth
  if _h : config.max_depth ≤ depth then
    .mk query res.1 []
  else
    .mk query res.1 (res.2.map (fun q => drift_search oracle config q (depth + 1)))
termination_by config.max_depth - depth
decreasing_by omega

mutual

/-- collect_answers (rag/utils/retrievers.py lines 4-10): pre-order walk that
keeps each truthy (non-empty) answer string. -/
def collect_answers : Node → List String
  | .mk _ answer children =>
    (if answer = "" then [] else [answer]) ++ collect_answers_list children

def collect_answers_list : List Node → List String
  | [] => []
  | c :: cs => collect_answers c ++ collect_answers_list cs

end

mutual

/-- All answers of the tree in pre-order (root first, then each child subtree
in stored order), with no filtering; reference traversal used to state what
collect_answers and _format_facts keep. -/
def preorder_answers : Node → List String
  | .mk _ answer children => answer :: preorder_answers_list children

def preorder_answers_list : List Node → List String
  | [] => []
  | c :: cs => preorder_answers c ++ preorder_answers_list cs

end

/-- Python str.strip() truthiness test used by _format_facts
(`if fact.strip()`): true iff the string has a character that is not
whitespace. The whitespace set models python's ASCII whitespace
(space, tab, newline, carriage return, vertical tab, form feed). -/
def py_strip_truthy (s : String) : Bool :=
  s.toList.any (fun c =>
    !(c = ' ' || c = '\t' || c = '\n' || c = '\r' || c = Char.ofNat 11 || c = Char.ofNat 12))

/-- The facts kept by _format_facts (rag/tools/search.py lines 9-13):
`[f"- \x7bfact\x7d" for fact in facts if fact.strip()]` keeps exactly the facts
whose strip() is non-empty (before prefixing each with "- "). -/
def format_facts_kept (facts : List String) : List String :=
  facts.filter py_strip_truthy

/-- Full _format_facts output string (rag/tools/search.py lines 9-13). -/
def format_facts (facts : List String) : String :=
  let formatted := (format_facts_kept facts).map (fun fact => "- " ++ fact)
  if formatted.isEmpty then "No relevant facts found."
  else "### Relevant Facts\n" ++ String.intercalate "\n" formatted

mutual

theorem collect_answers_eq_filter (t : Node) :
    collect_answers t = (preorder_answers t).filter (fun a => !(a == "")) := by
  match t with
  | .mk q a cs =>
    simp only [collect_answers, preorder_answers, List.filter_cons]
    rw [collect_answers_list_eq_filter cs]
    by_cases h : a = "" <;> simp [h]

theorem collect_answers_list_eq_filter (l : List Node) :
    collect_answers_list l = (preorder_answers_list l).filter (fun a => !(a == "")) := by
  match l with
  | [] => rfl
  | c :: cs =>
    simp only [collect_answers_list, preorder_answers_list, List.filter_append]
    rw [collect_answers_eq_filter c, collect_answers_list_eq_filter cs]

end

theorem py_strip_truthy_empty : py_strip_truthy "" = false := rfl

/-- Claim C5: in the DRIFT answer aggregation, a node answer that is empty or
whitespace-only is excluded from the externally visible fact list (empty
answers are dropped by collect_answers' truthiness test, whitespace-only ones
by _format_facts' strip() test), and every other answer is included, in
pre-order, for every tree shape. -/
theorem claim_C5_empty_answers_excluded (t : Node) :
    format_facts_kept (collect_answers t) =
      (preorder_answers t).filter py_strip_truthy ∧
    (∀ a, a ∈ format_facts_kept (collect_answers t) ↔
      (a ∈ preorder_answers t ∧ py_strip_truthy a = true)) := by
  have heq : format_facts_kept (collect_answers t) =
      (preorder_answers t).filter py_strip_truthy := by
    rw [format_facts_kept, collect_answers_eq_filter, List.filter_filter]
    refine List.filter_congr (fun a _ => ?_)
    by_cases h : a = ""
    · subst h
      rfl
    · simp [h]
  refine ⟨heq, fun a => ?_⟩
  rw [heq]
  simp [List.mem_filter]

/-- Claim C8: collect_answers walks the tree pre-order. For the tree
drift_search builds from a root whose primer answer is "A" with follow-ups
answered "B" then "C" (children attached in follow-up order), the collected
fact list is exactly ["A", "B", "C"]. -/
theorem claim_C8_preorder_aggregation :
    collect_answers
      (drift_search
        (fun q _ =>
          if q = "Q" then ("A", ["q1", "q2"])
          else if q = "q1" then ("B", []) else ("C", []))
        ⟨5, 2, 3⟩ "Q" 1)
      = ["A", "B", "C"] := by
  rw [drift_search]
  rw [dif_neg (by decide)]
  simp only [if_pos rfl, List.map]
  rw [drift_search, drift_search]
  simp [collect_answers, collect_answers_list]

/-- Claim C4 (counterexample): drift_search puts no bound of its own on the
branching: the follow-up count is only a prompt-level request. With LM
responses carrying 13 follow-up questions, a max_depth = 2, max_follow_ups = 3
run yields 1 + 13 = 14 > 13 nodes. -/
theorem claim_C4_counterexample :
    13 < Node.size
      (drift_search (fun _ _ => ("A", List.replicate 13 "x")) ⟨5, 2, 3⟩ "Q" 1) := by
  rw [drift_search]
  rw [dif_neg (by decide)]
  simp only [List.map_replicate]
  rw [drift_search]
  simp [Node.size, Node.sizeList]

theorem node_size_list_of_forall_one (l : List Node)
    (hl : ∀ x ∈ l, Node.size x = 1) : Node.sizeList l = l.length := by
  induction l with
  | nil => rfl
  | cons c cs ih =>
    simp only [Node.sizeList, hl c (by simp), List.length_cons]
    rw [ih (fun x hx => hl x (by simp [hx]))]
    omega

theorem node_height_list_le_one (l : List Node)
    (hl : ∀ x ∈ l, Node.height x = 1) : Node.heightList l ≤ 1 := by
  induction l with
  | nil => simp [Node.heightList]
  | cons c cs ih =>
    simp only [Node.heightList, hl c (by simp)]
    exact max_le (le_refl 1) (ih (fun x hx => hl x (by simp [hx])))

/-- Claim C4 (amended): for config max_depth = 2, max_follow_ups = 3 and the
default starting depth 1, provided every LM response carries at most
max_follow_ups = 3 follow-up questions (the behaviour the prompt requests),
the answer tree has at most 13 nodes — indeed at most 1 + 3 = 4, because the
root runs at depth 1 and its children at depth 2 = max_depth are leaves — and
its height is at most 2, i.e. every node sits at depth ≤ 2 counting the root
at depth 1; each recursive call runs at depth + 1, which bounds the recursion
by max_depth levels. -/
theorem claim_C4_bounded_tree (top_k : Nat)
    (oracle : String → Nat → String × List String)
    (hf : ∀ q d, ((oracle q d).2).length ≤ 3) (query : String) :
    Node.size (drift_search oracle ⟨top_k, 2, 3⟩ query 1) ≤ 13 ∧
    Node.size (drift_search oracle ⟨top_k, 2, 3⟩ query 1) ≤ 4 ∧
    Node.height (drift_search oracle ⟨top_k, 2, 3⟩ query 1) ≤ 2 := by
  have hleaf : ∀ x ∈ ((oracle query 1).2).map
      (fun q => drift_search oracle ⟨top_k, 2, 3⟩ q (1 + 1)),
      Node.size x = 1 ∧ Node.height x = 1 := by
    intro x hx
    simp only [List.mem_map] at hx
    obtain ⟨a, _, rfl⟩ := hx
    rw [drift_search]
    rw [dif_pos (show (2:Nat) ≤ 1 + 1 by decide)]
    constructor <;> rfl
  have hsize : Node.size (drift_search oracle ⟨top_k, 2, 3⟩ query 1) ≤ 4 := by
    rw [drift_search]
    rw [dif_neg (show ¬ ((2:Nat) ≤ 1) by decide)]
    simp only [Node.size]
    rw [node_size_list_of_forall_one _ (fun x hx => (hleaf x hx).1)]
    have := hf query 1
    simp only [List.length_map]
    omega
  refine ⟨le_trans hsize (by omega), hsize, ?_⟩
  rw [drift_search]
  rw [dif_neg (show ¬ ((2:Nat) ≤ 1) by decide)]
  simp only [Node.height]
  have := node_height_list_le_one _ (fun x hx => (hleaf x hx).2)
  omega

/-- Witness for claim_C4_bounded_tree: an LM returning one follow-up per call
satisfies the 3-follow-up bound, and the resulting two-node tree obeys all
three bounds. -/
theorem claim_C4_bounded_tree_witness :
    (∀ q d, (((fun (_ : String) (_ : Nat) => ("A", ["x"])) q d).2).length ≤ 3) ∧
    Node.size (drift_search (fun _ _ => ("A", ["x"])) ⟨5, 2, 3⟩ "Q" 1) ≤ 13 ∧
    Node.size (drift_search (fun _ _ => ("A", ["x"])) ⟨5, 2, 3⟩ "Q" 1) ≤ 4 ∧
    Node.height (drift_search (fun _ _ => ("A", ["x"])) ⟨5, 2, 3⟩ "Q" 1) ≤ 2 := by
  refine ⟨fun q d => by simp, ?_⟩
  exact claim_C4_bounded_tree 5 (fun _ _ => ("A", ["x"])) (fun q d => by simp) "Q"

/-- One observable effect of an ingest run: a vector-store/graph write or
read, an LM call, or a knowledge-base upsert. Each constructor corresponds to
one call site in lexical_graph.py / property_graph.py. -/
inductive IngestStep where
  | addDocuments
  | fileNodeQuery
  | embeddingFetch
  | similaritySearch
  | mergeSimilarEdge
  | llmInvoke
  | kbUpsert
  | mergeEntityQuery
  | mergeTripletQuery
  | communityQuery (description : String)
deriving DecidableEq

/-- Python exception kinds relevant here: the explicit
`raise ValueError(...)` guarding community summarization, and the
AttributeError that `self.llm.invoke(...)` raises when `self.llm` is None. -/
inductive PyError where
  | valueError
  | attributeError
deriving DecidableEq

/-- Graph queries and LM calls issued by _extract_community_summaries
(_make_community_nodes then _generate_community_summaries), in order:
gds projection + leiden write, projection drop, community-id namespacing,
Community-node merge, per-community triplet fetch, one LM call per community,
and the batched summary write. -/
def community_steps (num_communities : Nat) : List IngestStep :=
  [IngestStep.communityQuery "gds_project_and_leiden",
   IngestStep.communityQuery "gds_drop",
   IngestStep.communityQuery "namespace_community_ids",
   IngestStep.communityQuery "merge_community_nodes",
   IngestStep.communityQuery "fetch_community_triplets"]
  ++ List.replicate num_communities IngestStep.llmInvoke
  ++ [IngestStep.communityQuery "write_summaries"]

/-- Effect trace of LexicalGraphIngestor.ingest (lexical_graph.py lines
38-75), with per-item loops abstracted to counts: persist chunks
(add_documents), merge the File node, fetch chunk embeddings, one similarity
search per chunk, one SIMILAR merge per surviving edge; then, when a graph
extractor is configured, the extraction LM calls and the entity/triplet
writes; only then, when extract_community_summaries is set, the llm presence
check (lines 65-69) — raising ValueError with everything above already
executed — and otherwise the community-summarization work. -/
def LexicalGraphIngestor.ingest_trace (has_graph_extractor ecs has_llm : Bool)
    (num_docs num_edges num_entities num_triplets num_communities : Nat) :
    List IngestStep × Option PyError :=
  let base := [IngestStep.addDocuments, IngestStep.fileNodeQuery, IngestStep.embeddingFetch]
    ++ List.replicate num_docs IngestStep.similaritySearch
    ++ List.replicate num_edges IngestStep.mergeSimilarEdge
  if has_graph_extractor then
    let steps := base ++ List.replicate num_docs IngestStep.llmInvoke
      ++ List.replicate num_entities IngestStep.mergeEntityQuery
      ++ List.replicate num_triplets IngestStep.mergeTripletQuery
    if ecs then
      if has_llm then (steps ++ community_steps num_communities, none)
      else (steps, some PyError.valueError)
    else (steps, none)
  else (base, none)

/-- Effect trace of PropertyGraphIngestor.ingest (property_graph.py lines
59-161): ontology resolution (an LM call plus knowledge-base upsert when
absent — an AttributeError if no LM is configured), one extraction LM call
per document (the first of which is an AttributeError when no LM is
configured), entity and triplet writes, and only then the llm presence check
(lines 146-152) guarding community summarization. -/
def PropertyGraphIngestor.ingest_trace (has_llm ecs has_ontology : Bool)
    (num_docs num_entities num_triplets num_communities : Nat) :
    List IngestStep × Option PyError :=
  if ¬ has_ontology ∧ ¬ has_llm then ([], some PyError.attributeError)
  else
    let ontology_steps :=
      if has_ontology then [] else [IngestStep.llmInvoke, IngestStep.kbUpsert]
    if 1 ≤ num_docs ∧ ¬ has_llm then (ontology_steps, some PyError.attributeError)
    else
      let steps := ontology_steps
        ++ List.replicate num_docs IngestStep.llmInvoke
        ++ List.replicate num_entities IngestStep.mergeEntityQuery
        ++ List.replicate num_triplets IngestStep.mergeTripletQuery
      if ecs then
        if has_llm then (steps ++ community_steps num_communities, none)
        else (steps, some PyError.valueError)
      else (steps, none)

/-- Claim C2 (counterexample): an ingest call with
extract_community_summaries = True and no LM does not fail before work
begins. In LexicalGraphIngestor.ingest with a graph extractor, one document,
one edge, one entity and one triplet, the ValueError is indeed raised — but
the trace executed before it already contains the chunk persistence
(add_documents), a graph query (the File-node merge) and an entity write. -/
theorem claim_C2_counterexample :
    (LexicalGraphIngestor.ingest_trace true true false 1 1 1 1 1).2
      = some PyError.valueError ∧
    IngestStep.addDocuments ∈ (LexicalGraphIngestor.ingest_trace true true false 1 1 1 1 1).1 ∧
    IngestStep.fileNodeQuery ∈ (LexicalGraphIngestor.ingest_trace true true false 1 1 1 1 1).1 ∧
    IngestStep.mergeEntityQuery ∈ (LexicalGraphIngestor.ingest_trace true true false 1 1 1 1 1).1 := by
  refine ⟨rfl, ?_, ?_, ?_⟩ <;> decide

/-- Claim C2 (amended): the missing-LM configuration error is raised late,
not before work begins. In LexicalGraphIngestor (graph extractor configured,
extract_community_summaries = True, no LM) every run ends in the ValueError
and no community-summarization query is ever issued, but chunk persistence,
lexical-graph queries and entity/triplet writes have already run. In
PropertyGraphIngestor the same configuration reaches the ValueError check
only when there is no document to extract from (and a preset ontology); with
at least one document the missing LM already fails during extraction with an
AttributeError instead. -/
theorem claim_C2_config_error_raised_late :
    (∀ nd ne nent ntr nc,
      (LexicalGraphIngestor.ingest_trace true true false nd ne nent ntr nc).2
        = some PyError.valueError ∧
      (∀ s ∈ (LexicalGraphIngestor.ingest_trace true true false nd ne nent ntr nc).1,
        ∀ d, s ≠ IngestStep.communityQuery d) ∧
      IngestStep.addDocuments ∈
        (LexicalGraphIngestor.ingest_trace true true false nd ne nent ntr nc).1) ∧
    (∀ nd nent ntr nc, 1 ≤ nd →
      (PropertyGraphIngestor.ingest_trace false true true nd nent ntr nc).2
        = some PyError.attributeError) ∧
    (∀ nc, PropertyGraphIngestor.ingest_trace false true true 0 0 0 nc
        = ([], some PyError.valueError)) := by
  refine ⟨fun nd ne nent ntr nc => ⟨rfl, ?_, by simp [LexicalGraphIngestor.ingest_trace]⟩,
    fun nd nent ntr nc hnd => ?_, fun nc => ?_⟩
  · intro s hs d hcontra
    rw [hcontra] at hs
    simp [LexicalGraphIngestor.ingest_trace, List.mem_append, List.mem_replicate] at hs
  · simp [PropertyGraphIngestor.ingest_trace, hnd]
  · simp [PropertyGraphIngestor.ingest_trace]

/-- Witness for claim_C2_config_error_raised_late at concrete run shapes. -/
theorem claim_C2_config_error_raised_late_witness :
    (LexicalGraphIngestor.ingest_trace true true false 1 1 1 1 1).2
      = some PyError.valueError ∧
    (PropertyGraphIngestor.ingest_trace false true true 1 1 1 1).2
      = some PyError.attributeError ∧
    PropertyGraphIngestor.ingest_trace false true true 0 0 0 1
      = ([], some PyError.valueError) :=
  ⟨(claim_C2_config_error_raised_late.1 1 1 1 1 1).1,
   claim_C2_config_error_raised_late.2.1 1 1 1 1 (by decide),
   claim_C2_config_error_raised_late.2.2 1⟩

/-- PropertyGraphIngestor._generate_community_summaries (property_graph.py
lines 413-530), with the per-community LM call and the batch embedding call as
oracles. The loop tries to summarize each community; an exception
(Except.error) is caught and logged and the community is simply skipped. The
surviving summaries are batch-embedded in order and the function returns the
rows of the single batched summary/embedding write. The function is total: a
failing community never aborts the run. -/
def PropertyGraphIngestor.generate_community_summaries {ε : Type}
    (summarize : String → String → Except String String)
    (embed_documents : List String → List ε)
    (community_data : List (String × String)) : List (String × String × ε) :=
  let community_summaries :=
    community_data.foldl
      (fun (acc : List (String × String)) (p : String × String) =>
        match summarize p.1 p.2 with
        | Except.ok s => acc ++ [(p.1, s)]
        | Except.error _ => acc) []
  if community_summaries.isEmpty then []
  else
    let embeddings := embed_documents (community_summaries.map Prod.snd)
    (community_summaries.zip embeddings).map (fun q => (q.1.1, q.1.2, q.2))

/-- LexicalGraphIngestor._generate_community_summaries (lexical_graph.py lines
249-323): same per-community try/except loop, but the batched write carries
summaries only (no embeddings). -/
def LexicalGraphIngestor.generate_community_summaries
    (summarize : String → String → Except String String)
    (community_data : List (String × String)) : List (String × String) :=
  community_data.foldl
    (fun (acc : List (String × String)) (p : String × String) =>
      match summarize p.1 p.2 with
      | Except.ok s => acc ++ [(p.1, s)]
      | Except.error _ => acc) []

theorem community_fold_eq_filterMap (summarize : String → String → Except String String)
    (l : List (String × String)) (acc : List (String × String)) :
    l.foldl
      (fun (a : List (String × String)) (p : String × String) =>
        match summarize p.1 p.2 with
        | Except.ok s => a ++ [(p.1, s)]
        | Except.error _ => a) acc
    = acc ++ l.filterMap (fun p =>
        match summarize p.1 p.2 with
        | Except.ok s => some (p.1, s)
        | Except.error _ => none) := by
  induction l generalizing acc with
  | nil => simp
  | cons p rest ih =>
    simp only [List.foldl_cons, List.filterMap_cons]
    cases h : summarize p.1 p.2 with
    | ok s => simp [h, ih]
    | error e => simp [h, ih]

theorem exists_mem_zip_left {γ δ : Type} (l : List γ) (E : List δ)
    (h : l.length = E.length) (x : γ) (hx : x ∈ l) : ∃ e, (x, e) ∈ l.zip E := by
  induction l generalizing E with
  | nil => simp at hx
  | cons a as ih =>
    cases E with
    | nil => simp at h
    | cons b bs =>
      simp only [List.length_cons, Nat.add_right_cancel_iff] at h
      rcases List.mem_cons.mp hx with rfl | hmem
      · exact ⟨b, by simp [List.zip_cons_cons]⟩
      · obtain ⟨e, he⟩ := ih bs h hmem
        exact ⟨e, by simp [List.zip_cons_cons, he]⟩

theorem rows_map_fst {γ δ ε : Type} (cs : List (γ × δ)) (E : List ε)
    (h : cs.length ≤ E.length) :
    ((cs.zip E).map (fun q => (q.1.1, q.1.2, q.2))).map (fun r => r.1)
      = cs.map Prod.fst := by
  rw [List.map_map]
  have hcomp : ((fun (r : γ × δ × ε) => r.1) ∘ (fun q : (γ × δ) × ε => (q.1.1, q.1.2, q.2)))
      = (Prod.fst ∘ (Prod.fst : (γ × δ) × ε → γ × δ)) := rfl
  rw [hcomp, ← List.map_map, List.map_fst_zip cs E h]

theorem filterMap_ok_fst (summarize : String → String → Except String String)
    (q : String × String) (c : String × String)
    (hg : (match summarize q.1 q.2 with
           | Except.ok s => some (q.1, s)
           | Except.error _ => none) = some c) :
    c.1 = q.1 ∧ summarize q.1 q.2 = Except.ok c.2 := by
  cases h : summarize q.1 q.2 with
  | ok s =>
    rw [h] at hg
    simp only [Option.some.injEq] at hg
    subst hg
    exact ⟨rfl, by simp [h]⟩
  | error e =>
    rw [h] at hg
    simp at hg

/-- Claim C9: per-community summarization failures are isolated. A community
whose LM call raises is omitted from the batched summary (and embedding)
write, every community whose LM call succeeds is included with its summary,
and the loop (hence the rest of the file's ingestion) continues — both
_generate_community_summaries implementations are total functions of the
oracles. `hlen` is the order-preserving embedding contract (one vector per
summary); community ids are unique per file by namespacing, giving the Nodup
hypotheses. -/
theorem claim_C9_per_community_failure_isolated {ε : Type}
    (summarize : String → String → Except String String)
    (embed_documents : List String → List ε)
    (hlen : ∀ l, (embed_documents l).length = l.length)
    (community_data : List (String × String)) :
    (∀ p ∈ community_data, ∀ s, summarize p.1 p.2 = Except.ok s →
      ∃ e, (p.1, s, e) ∈ PropertyGraphIngestor.generate_community_summaries
        summarize embed_documents community_data) ∧
    ((community_data.map Prod.fst).Nodup →
      ∀ p ∈ community_data, ∀ msg, summarize p.1 p.2 = Except.error msg →
        p.1 ∉ (PropertyGraphIngestor.generate_community_summaries
          summarize embed_documents community_data).map (fun r => r.1)) ∧
    (∀ p ∈ community_data, ∀ s, summarize p.1 p.2 = Except.ok s →
      (p.1, s) ∈ LexicalGraphIngestor.generate_community_summaries
        summarize community_data) ∧
    ((community_data.map Prod.fst).Nodup →
      ∀ p ∈ community_data, ∀ msg, summarize p.1 p.2 = Except.error msg →
        p.1 ∉ (LexicalGraphIngestor.generate_community_summaries
          summarize community_data).map Prod.fst) := by
  have hcs : LexicalGraphIngestor.generate_community_summaries summarize community_data
      = community_data.filterMap (fun p =>
          match summarize p.1 p.2 with
          | Except.ok s => some (p.1, s)
          | Except.error _ => none) := by
    rw [LexicalGraphIngestor.generate_community_summaries,
      community_fold_eq_filterMap summarize community_data []]
    rfl
  have hmem_cs : ∀ p ∈ community_data, ∀ s, summarize p.1 p.2 = Except.ok s →
      (p.1, s) ∈ LexicalGraphIngestor.generate_community_summaries
        summarize community_data := by
    intro p hp s hok
    rw [hcs]
    exact List.mem_filterMap.mpr ⟨p, hp, by simp only [hok]⟩
  have hnotmem_cs : (community_data.map Prod.fst).Nodup →
      ∀ p ∈ community_data, ∀ msg, summarize p.1 p.2 = Except.error msg →
        p.1 ∉ (LexicalGraphIngestor.generate_community_summaries
          summarize community_data).map Prod.fst := by
    intro hnd p hp msg herr hmem
    rw [hcs] at hmem
    obtain ⟨c, hc, hcfst⟩ := List.mem_map.mp hmem
    obtain ⟨q, hq, hgq⟩ := List.mem_filterMap.mp hc
    obtain ⟨hqc, hqok⟩ := filterMap_ok_fst summarize q c hgq
    have hqp : q = p :=
      List.inj_on_of_nodup_map hnd hq hp (by rw [← hqc, hcfst])
    rw [hqp] at hqok
    rw [hqok] at herr
    exact Except.noConfusion herr
  refine ⟨?_, ?_, hmem_cs, hnotmem_cs⟩
  · intro p hp s hok
    have hc := hmem_cs p hp s hok
    rw [hcs] at hc
    have hne : ¬ ((community_data.filterMap (fun p =>
        match summarize p.1 p.2 with
        | Except.ok s => some (p.1, s)
        | Except.error _ => none)).isEmpty = true) := by
      rw [List.isEmpty_iff]
      exact fun hnil => by simp [hnil] at hc
    rw [PropertyGraphIngestor.generate_community_summaries]
    simp only [community_fold_eq_filterMap summarize community_data [], List.nil_append]
    rw [if_neg hne]
    set cs := community_data.filterMap (fun p =>
        match summarize p.1 p.2 with
        | Except.ok s => some (p.1, s)
        | Except.error _ => none) with hcs_def
    obtain ⟨e, he⟩ := exists_mem_zip_left cs
      (embed_documents (cs.map Prod.snd))
      (by rw [hlen, List.length_map]) (p.1, s) hc
    exact ⟨e, List.mem_map.mpr ⟨((p.1, s), e), he, rfl⟩⟩
  · intro hnd p hp msg herr hmem
    rw [PropertyGraphIngestor.generate_community_summaries] at hmem
    simp only [community_fold_eq_filterMap summarize community_data [],
      List.nil_append] at hmem
    set cs := community_data.filterMap (fun p =>
        match summarize p.1 p.2 with
        | Except.ok s => some (p.1, s)
        | Except.error _ => none) with hcs_def
    by_cases hemp : cs.isEmpty = true
    · rw [if_pos hemp] at hmem
      simp at hmem
    · rw [if_neg hemp] at hmem
      rw [rows_map_fst cs (embed_documents (cs.map Prod.snd))
        (by rw [hlen, List.length_map])] at hmem
      refine hnotmem_cs hnd p hp msg herr ?_
      rw [hcs]
      exact hmem

/-- Witness for claim_C9_per_community_failure_isolated: two communities, the
LM call fails on "c1" and succeeds on "c2"; "c2" reaches the batched write
with its summary (and an embedding), "c1" is omitted, in both ingestors. -/
theorem claim_C9_per_community_failure_isolated_witness :
    (∃ e, ("c2", "s2", e) ∈ PropertyGraphIngestor.generate_community_summaries
        (fun cid _ => if cid = "c1" then Except.error "boom" else Except.ok "s2")
        (fun l => l.map (fun _ => (0 : Nat)))
        [("c1", "t1"), ("c2", "t2")]) ∧
    "c1" ∉ (PropertyGraphIngestor.generate_community_summaries
        (fun cid _ => if cid = "c1" then Except.error "boom" else Except.ok "s2")
        (fun l => l.map (fun _ => (0 : Nat)))
        [("c1", "t1"), ("c2", "t2")]).map (fun r => r.1) ∧
    ("c2", "s2") ∈ LexicalGraphIngestor.generate_community_summaries
        (fun cid _ => if cid = "c1" then Except.error "boom" else Except.ok "s2")
        [("c1", "t1"), ("c2", "t2")] ∧
    "c1" ∉ (LexicalGraphIngestor.generate_community_summaries
        (fun cid _ => if cid = "c1" then Except.error "boom" else Except.ok "s2")
        [("c1", "t1"), ("c2", "t2")]).map Prod.fst := by
  have h := claim_C9_per_community_failure_isolated
    (fun cid _ => if cid = "c1" then Except.error "boom" else Except.ok "s2")
    (fun l => l.map (fun _ => (0 : Nat)))
    (fun l => by simp)
    [("c1", "t1"), ("c2", "t2")]
  exact ⟨h.1 ("c2", "t2") (by decide) "s2" rfl,
         h.2.1 (by decide) ("c1", "t1") (by decide) "boom" rfl,
         h.2.2.1 ("c2", "t2") (by decide) "s2" rfl,
         h.2.2.2 (by decide) ("c1", "t1") (by decide) "boom" rfl⟩

/-- A graph write issued by _create_entity_and_links: either the MERGE of the
entity node followed by `SET e += $properties` (property_graph.py lines
267-284), or the MERGE of one BELONGS_TO edge from the entity to a chunk
(lines 291-306). -/
inductive GraphWrite where
  | mergeEntityNode (entity_label : String) (entity_id : String)
      (knowledge_base_id : String) (file_id : String)
      (properties : List (String × String))
  | mergeBelongsTo (entity_id : String) (doc_id : String)
deriving DecidableEq

/-- PropertyGraphIngestor._create_entity_and_links (property_graph.py lines
265-306): merge the entity node keyed by (label, id, knowledge_base_id,
source_id) and set the entity's properties dict onto it, then merge one
BELONGS_TO edge per doc id in entity.doc_ids. The edge writes are a multiset
because python iterates the doc_ids set in unspecified order. -/
def PropertyGraphIngestor.create_entity_and_links (knowledge_base_id file_id : String)
    (entity : Entity) : GraphWrite × Multiset GraphWrite :=
  (GraphWrite.mergeEntityNode entity.entity_label entity.id knowledge_base_id file_id
     entity.properties,
   entity.doc_ids.val.map (fun doc_id => GraphWrite.mergeBelongsTo entity.id doc_id))

/-- Entity snapshot serialized into the extraction prompt:
`ent.model_dump(exclude=\x7b"doc_ids"\x7d)` in GraphExtractor._apply_ontology_to_doc
(graph_extractor.py lines 79-82): id, entity_label and properties only. -/
structure SerializedEntity where
  id : String
  entity_label : String
  properties : List (String × String)
deriving DecidableEq

/-- Serialization of one entity for the LM prompt, from
GraphExtractor._apply_ontology_to_doc: doc_ids is excluded. -/
def GraphExtractor.serialize_entity (entity : Entity) : SerializedEntity :=
  ⟨entity.id, entity.entity_label, entity.properties⟩

/-- Claim C10: doc_ids is pure accounting metadata. The entity-node write of
_create_entity_and_links is unchanged under any replacement of doc_ids and
persists exactly the entity's properties dict (so the doc_ids set is never
written as a node property); doc_ids only determines the BELONGS_TO edge
writes, each of which points at one of the entity's doc ids; and the entity
snapshot serialized into the LM extraction prompt is likewise independent of
doc_ids. -/
theorem claim_C10_doc_ids_not_persisted (knowledge_base_id file_id : String)
    (entity : Entity) (other_doc_ids : Finset String) :
    (PropertyGraphIngestor.create_entity_and_links knowledge_base_id file_id
        { entity with doc_ids := other_doc_ids }).1
      = (PropertyGraphIngestor.create_entity_and_links knowledge_base_id file_id entity).1 ∧
    (PropertyGraphIngestor.create_entity_and_links knowledge_base_id file_id entity).1
      = GraphWrite.mergeEntityNode entity.entity_label entity.id knowledge_base_id file_id
          entity.properties ∧
    (∀ w ∈ (PropertyGraphIngestor.create_entity_and_links knowledge_base_id file_id
        entity).2,
      ∃ d ∈ entity.doc_ids, w = GraphWrite.mergeBelongsTo entity.id d) ∧
    GraphExtractor.serialize_entity { entity with doc_ids := other_doc_ids }
      = GraphExtractor.serialize_entity entity := by
  refine ⟨rfl, rfl, ?_, rfl⟩
  intro w hw
  simp only [PropertyGraphIngestor.create_entity_and_links, Multiset.mem_map] at hw
  obtain ⟨d, hd, rfl⟩ := hw
  exact ⟨d, hd, rfl⟩

/-- Witness for claim_C10_doc_ids_not_persisted at a concrete entity: the
node write ignores the doc_ids replacement and carries exactly the properties
dict, the single edge write targets the doc id "d1", and serialization is
unchanged. -/
theorem claim_C10_doc_ids_not_persisted_witness :
    (PropertyGraphIngestor.create_entity_and_links "kb" "f"
        { (⟨"e", "Driver", [("p", "1")], {"d1"}⟩ : Entity) with
            doc_ids := ({"zz"} : Finset String) }).1
      = (PropertyGraphIngestor.create_entity_and_links "kb" "f"
          ⟨"e", "Driver", [("p", "1")], {"d1"}⟩).1 ∧
    (PropertyGraphIngestor.create_entity_and_links "kb" "f"
        ⟨"e", "Driver", [("p", "1")], {"d1"}⟩).1
      = GraphWrite.mergeEntityNode "Driver" "e" "kb" "f" [("p", "1")] ∧
    (∃ d ∈ ({"d1"} : Finset String),
      GraphWrite.mergeBelongsTo "e" "d1" = GraphWrite.mergeBelongsTo "e" d) ∧
    GraphExtractor.serialize_entity ⟨"e", "Driver", [("p", "1")], {"zz"}⟩
      = GraphExtractor.serialize_entity ⟨"e", "Driver", [("p", "1")], {"d1"}⟩ := by
  have h := claim_C10_doc_ids_not_persisted "kb" "f"
    ⟨"e", "Driver", [("p", "1")], {"d1"}⟩ ({"zz"} : Finset String)
  refine ⟨h.1, h.2.1, ?_, h.2.2.2⟩
  exact h.2.2.1 (GraphWrite.mergeBelongsTo "e" "d1") (by decide)
